import Mathlib

/-!
Verification of the AppFuse FUSE request-handling loop
(packages/MtpDocumentsProvider/jni/com_android_mtp_AppFuse.cpp).

The definitions below are a shallow embedding of the C++ source.  Machine
integers are modelled as Nat or Int with explicit reductions modulo 2^32 or
2^64 at the points where the C++ code performs implicit conversions.  The
std::map handle table is modelled as an association list (all states the
C++ map can be in have unique keys, on which the list operations below agree
with the map operations).  The JNI upcalls to the Java ContentProvider are
modelled as an injected record of pure functions.
-/

/-! Constants from the source file and from linux/fuse.h (which the source
includes); struct sizes follow the FUSE 7.23 layouts the file is built
against. -/

def MAX_WRITE : Nat := 256 * 1024
def MAX_READ : Nat := 128 * 1024
def NUM_MAX_HANDLES : Nat := 1024
def U32 : Nat := 2 ^ 32
def U64 : Nat := 2 ^ 64
def FUSE_KERNEL_VERSION : Nat := 7
def FUSE_ATOMIC_O_TRUNC : Nat := 8
def FUSE_BIG_WRITES : Nat := 32
def SIZEOF_IN_HEADER : Nat := 40
def SIZEOF_OUT_HEADER : Nat := 16
def SIZEOF_ENTRY_OUT : Nat := 128
def SIZEOF_ATTR_OUT : Nat := 104
def SIZEOF_OPEN_OUT : Nat := 16
def SIZEOF_INIT_OUT : Nat := 64
def FUSE_COMPAT_22_INIT_OUT_SIZE : Nat := 24

/-- Mode bits S_IFREG | 0777 written by LOOKUP and GETATTR. -/
def S_IFREG_MODE : Nat := 33279

/-- Mode bits S_IFDIR | 0777 written by GETATTR on the root inode. -/
def S_IFDIR_MODE : Nat := 16895

def ENOENT : Int := 2
def EIO_ERRNO : Int := 5
def EBADF : Int := 9
def ENODEV : Nat := 19
def EINVAL : Int := 22
def EMFILE : Int := 24
def ENOSYS : Int := 38

/-- Conversion of an unsigned 64-bit value to a C `int` (two's complement
truncation to 32 bits), as performed by the implicit conversions in the
source (e.g. passing `header().unique` to the `int unique` parameter of
`fuse_reply`, or a `uint64_t` inode to an `int inode` parameter). -/
def toInt32 (n : Nat) : Int :=
  let m := n % U32
  if m < 2 ^ 31 then (m : Int) else (m : Int) - (U32 : Int)

/-- Reinterpretation of a signed 64-bit value as `uint64_t` (and also the
sign extension of a narrower signed value stored into a `__u64` field). -/
def i64ToU64 (z : Int) : Nat := (z % (U64 : Int)).toNat

/-- Unsigned 64-bit subtraction `a - b` (modulo 2^64), as produced by the
usual arithmetic conversions in `get_file_size(inode) - offset`. -/
def u64sub (a b : Nat) : Nat := (a % U64 + (U64 - b % U64)) % U64

/-! The handle table `std::map<uint32_t, uint64_t> handles_`, modelled as an
association list from tokens to inode ids. -/

def tblLookup : List (Nat × Nat) → Nat → Option Nat
  | [], _ => none
  | kv :: rest, t => if kv.1 = t then some kv.2 else tblLookup rest t

def tblErase : List (Nat × Nat) → Nat → List (Nat × Nat)
  | [], _ => []
  | kv :: rest, t => if kv.1 = t then tblErase rest t else kv :: tblErase rest t

/-! The C `atoi` used by the LOOKUP handler: skip whitespace, optional sign,
then leading decimal digits; no digits parse as 0.  (Overflow of the C `int`
is undefined behaviour in the source; names appearing in the claims are
small, and the model uses unbounded integers.) -/

def isSpaceChar (c : Char) : Bool :=
  c = ' ' || c = '\t' || c = '\n' || c = '\x0b' || c = '\x0c' || c = '\r'

def atoiDigits : List Char → Nat → Nat
  | [], acc => acc
  | c :: rest, acc =>
    if c.isDigit then atoiDigits rest (acc * 10 + (c.toNat - 48)) else acc

def atoi (s : String) : Int :=
  match s.toList.dropWhile isSpaceChar with
  | '-' :: rest => -(atoiDigits rest 0 : Int)
  | '+' :: rest => (atoiDigits rest 0 : Int)
  | l => (atoiDigits l 0 : Int)

/-- The two Java upcalls reached through JNI: `getFileSize(int) : long` and
`getObjectBytes(int, long, int) : byte[]` (`none` models a null array). -/
structure ContentProvider where
  getFileSize : Int → Int
  getObjectBytes : Int → Nat → Nat → Option (List Nat)

/-- Per-session mutable state of the AppFuse object: the handle table and
the 32-bit token counter `handle_counter_`. -/
structure Session where
  handles : List (Nat × Nat)
  counter : Nat
  deriving DecidableEq

def initialSession : Session := ⟨[], 0⟩

/-- Fields of `fuse_entry_out` written by the LOOKUP handler. -/
structure EntryOut where
  nodeid : Nat
  attr_valid : Nat
  entry_valid : Nat
  ino : Nat
  mode : Nat
  size : Nat
  deriving DecidableEq

/-- Result of the LOOKUP handler: the reply code, the entry written on
success, and the argument of the `get_file_size` upcall when it was made. -/
structure LookupResult where
  reply : Int
  entry : Option EntryOut
  consulted : Option Int
  deriving DecidableEq

def handle_fuse_lookup (p : ContentProvider) (nodeid : Nat) (name : String) :
    LookupResult :=
  if nodeid ≠ 1 then ⟨-ENOENT, none, none⟩
  else
    let n : Int := atoi name
    if n = 0 then ⟨-ENOENT, none, none⟩
    else
      let size := p.getFileSize n
      if size < 0 then ⟨-ENOENT, none, some n⟩
      else ⟨0, some ⟨i64ToU64 n, 10, 10, i64ToU64 n, S_IFREG_MODE, i64ToU64 size⟩,
            some n⟩

/-- Fields of `fuse_init_out` written by the INIT handler. -/
structure InitOut where
  major : Nat
  minor : Nat
  max_readahead : Nat
  flags : Nat
  max_background : Nat
  congestion_threshold : Nat
  max_write : Nat
  deriving DecidableEq

def handle_fuse_init (major minor max_readahead : Nat) :
    Int × Option (InitOut × Nat) :=
  if major ≠ FUSE_KERNEL_VERSION ∨ minor < 6 then (-1, none)
  else
    let response_size :=
      if minor ≤ 22 then FUSE_COMPAT_22_INIT_OUT_SIZE else SIZEOF_INIT_OUT
    (0, some ({ major := FUSE_KERNEL_VERSION
                minor := min minor 15
                max_readahead := max_readahead
                flags := FUSE_ATOMIC_O_TRUNC ||| FUSE_BIG_WRITES
                max_background := 32
                congestion_threshold := 32
                max_write := MAX_WRITE }, response_size))

/-- Fields of `fuse_attr_out` written by the GETATTR handler (the buffer is
zeroed before the provider is consulted, so the error path leaves mode and
size zero). -/
structure AttrOut where
  attr_valid : Nat
  ino : Nat
  mode : Nat
  size : Nat
  deriving DecidableEq

def handle_fuse_getattr (p : ContentProvider) (nodeid : Nat) : Int × AttrOut :=
  if nodeid = 1 then (0, ⟨10, 1, S_IFDIR_MODE, 0⟩)
  else
    let size := p.getFileSize (toInt32 nodeid)
    if size < 0 then (-ENOENT, ⟨10, nodeid, 0, 0⟩)
    else (0, ⟨10, nodeid, S_IFREG_MODE, i64ToU64 size⟩)

/-- The do-while token search of the OPEN handler: `handle = handle_counter_++`
repeated while `handle` is already in the table; both the handle and the
counter are 32-bit.  Fuel bounds the number of iterations; the handler calls
it with enough fuel for the search to provably succeed. -/
def allocLoop (l : List (Nat × Nat)) : Nat → Nat → Option (Nat × Nat)
  | _, 0 => none
  | c, fuel + 1 =>
    match tblLookup l (c % U32) with
    | none => some (c % U32, (c + 1) % U32)
    | some _ => allocLoop l ((c + 1) % U32) fuel

/-- OPEN handler: reply code, updated session, and the token placed in the
reply's `fh` field on success.  The `none` fallback of the match is
unreachable: `allocLoop_isSome_of_length_lt` below shows the search succeeds
within `handles.length + 1` steps whenever the table has fewer than 2^32
entries, which the capacity guard ensures. -/
def handle_fuse_open (s : Session) (nodeid : Nat) : Int × Session × Option Nat :=
  if NUM_MAX_HANDLES ≤ s.handles.length then (-EMFILE, s, none)
  else
    match allocLoop s.handles s.counter (s.handles.length + 1) with
    | some (h, c') => (0, ⟨(h, nodeid) :: s.handles, c'⟩, some h)
    | none => (0, s, none)

/-- The body of `get_object_bytes`: re-query the file size, clamp with the
(unsigned) subtraction, invoke the provider, and validate the returned
array.  Returns the function result together with the arguments passed to
the `getObjectBytes` upcall. -/
def get_object_bytes (p : ContentProvider) (inode : Int) (offset size : Nat) :
    Int × (Int × Nat × Nat) :=
  let fs := p.getFileSize inode
  let read_size := min size (u64sub (i64ToU64 fs) offset)
  let res : Int :=
    match p.getObjectBytes inode offset read_size with
    | none => -1
    | some bytes => if bytes.length = read_size then (read_size : Int) else -1
  (res, (inode, offset, read_size))

/-- Result of the READ handler: reply code, reply payload size, and the
arguments of the `getObjectBytes` upcall when it was made. -/
structure ReadResult where
  reply : Int
  size : Nat
  call : Option (Int × Nat × Nat)
  deriving DecidableEq

/-- READ handler.  The 64-bit `in->fh` is implicitly narrowed to the
`uint32_t` key type of the handle table at `handles_.find(in->fh)`,
modelled by the reduction `fh % U32`. -/
def handle_fuse_read (p : ContentProvider) (s : Session)
    (fh offset size : Nat) : ReadResult :=
  if MAX_READ < size then ⟨-EINVAL, 0, none⟩
  else
    match tblLookup s.handles (fh % U32) with
    | none => ⟨-EBADF, 0, none⟩
    | some inode =>
      let res := get_object_bytes p (toInt32 inode) offset size
      if res.1 < 0 then ⟨-EIO_ERRNO, 0, some res.2⟩
      else ⟨0, res.1.toNat, some res.2⟩

/-- RELEASE handler.  As in READ, the 64-bit `in->fh` is narrowed to the
`uint32_t` key type at `handles_.erase(in->fh)`. -/
def handle_fuse_release (s : Session) (fh : Nat) : Int × Session :=
  (0, ⟨tblErase s.handles (fh % U32), s.counter⟩)

/-- Output of `fuse_reply`: the `fuse_out_header` fields, the number of iovec
segments written, and the payload length of the gather-write. -/
structure FuseReply where
  len : Nat
  error : Int
  unique : Nat
  iovCount : Nat
  payloadSize : Nat
  deriving DecidableEq

/-- The static `fuse_reply`.  Its `unique` parameter is a C `int`, so the
64-bit request unique is truncated at the call and sign-extended back into
the `__u64` header field. -/
def fuse_reply (unique : Nat) (reply_code : Int) (reply_size : Nat) : FuseReply :=
  let uniqueInt : Int := toInt32 unique
  let rs := if reply_code ≠ 0 then 0 else reply_size
  { len := (rs + SIZEOF_OUT_HEADER) % U32
    error := reply_code
    unique := i64ToU64 uniqueInt
    iovCount := if rs ≠ 0 then 2 else 1
    payloadSize := rs }

/-- Typed view of a decoded request: the header fields the handlers read,
and the opcode together with its input structure. -/
inductive OpData where
  | lookupOp (name : String)
  | initOp (major minor max_readahead : Nat)
  | getattrOp
  | openOp
  | readOp (fh offset size : Nat)
  | releaseOp (fh : Nat)
  | flushOp
  | forgetOp
  | unsupportedOp (opcode : Nat)
  deriving DecidableEq

structure Request where
  unique : Nat
  nodeid : Nat
  op : OpData
  deriving DecidableEq

/-- `AppFuse::handle_fuse_request` combined with `invoke_handler`: dispatch
on the opcode, run the handler, and form the reply.  Returns the value of
the C++ function (false exactly for FORGET), the updated session, and the
reply written to the device (none for FORGET). -/
def handle_fuse_request (p : ContentProvider) (s : Session) (r : Request) :
    Bool × Session × Option FuseReply :=
  match r.op with
  | .lookupOp name =>
    let res := handle_fuse_lookup p r.nodeid name
    (true, s, some (fuse_reply r.unique res.reply
      (match res.entry with | none => 0 | some _ => SIZEOF_ENTRY_OUT)))
  | .initOp major minor mra =>
    let res := handle_fuse_init major minor mra
    (true, s, some (fuse_reply r.unique res.1
      (match res.2 with | none => 0 | some x => x.2)))
  | .getattrOp =>
    let res := handle_fuse_getattr p r.nodeid
    (true, s, some (fuse_reply r.unique res.1 SIZEOF_ATTR_OUT))
  | .openOp =>
    let res := handle_fuse_open s r.nodeid
    (true, res.2.1, some (fuse_reply r.unique res.1
      (match res.2.2 with | none => 0 | some _ => SIZEOF_OPEN_OUT)))
  | .readOp fh off sz =>
    let res := handle_fuse_read p s fh off sz
    (true, s, some (fuse_reply r.unique res.reply res.size))
  | .releaseOp fh =>
    let res := handle_fuse_release s fh
    (true, res.2, some (fuse_reply r.unique res.1 0))
  | .flushOp => (true, s, some (fuse_reply r.unique 0 0))
  | .forgetOp => (false, s, none)
  | .unsupportedOp _ => (true, s, some (fuse_reply r.unique (-ENOSYS) 0))

/-- State transition of one dispatched request. -/
def stepS (p : ContentProvider) (s : Session) (r : Request) : Session :=
  (handle_fuse_request p s r).2.1

/-- One iteration's worth of input to the loop: either `read` failed with the
given errno, or it returned `readLen` bytes whose input header claims
`hdrLen` and decodes to `req`. -/
inductive Event where
  | readErr (errnoVal : Nat)
  | frame (readLen hdrLen : Nat) (req : Request)
  deriving DecidableEq

/-- `com_android_mtp_AppFuse_start_app_fuse_loop` over a finite list of read
results: returns `some true` on FORGET, `some false` on ENODEV, `none` if the
events are exhausted with the loop still running, together with the replies
written. -/
def fuse_loop (p : ContentProvider) : Session → List Event → Option Bool × List FuseReply
  | _, [] => (none, [])
  | s, Event.readErr e :: rest =>
    if e = ENODEV then (some false, []) else fuse_loop p s rest
  | s, Event.frame readLen hdrLen req :: rest =>
    if readLen < SIZEOF_IN_HEADER then fuse_loop p s rest
    else if hdrLen ≠ readLen then fuse_loop p s rest
    else
      let res := handle_fuse_request p s req
      if res.1 then
        let cont := fuse_loop p res.2.1 rest
        (cont.1, res.2.2.toList ++ cont.2)
      else (some true, [])

/-- `avoidsT p s reqs t` holds when no request in `reqs`, run from `s`, is an
OPEN whose reply issues the token `t`. -/
def avoidsT (p : ContentProvider) : Session → List Request → Nat → Prop
  | _, [], _ => True
  | s, r :: rest, t =>
    ¬(r.op = OpData.openOp ∧ (handle_fuse_open s r.nodeid).2.2 = some t) ∧
      avoidsT p (stepS p s r) rest t

/-! Helper lemmas about the handle table. -/

theorem tblLookup_not_mem {l : List (Nat × Nat)} {t : Nat}
    (h : t ∉ l.map Prod.fst) : tblLookup l t = none := by
  induction l with
  | nil => rfl
  | cons kv rest ih =>
    simp only [List.map_cons, List.mem_cons, not_or] at h
    simp only [tblLookup]
    rw [if_neg (Ne.symm h.1)]
    exact ih h.2

theorem tblErase_length_le (l : List (Nat × Nat)) (t : Nat) :
    (tblErase l t).length ≤ l.length := by
  induction l with
  | nil => simp [tblErase]
  | cons kv rest ih =>
    simp only [tblErase]
    by_cases h : kv.1 = t
    · simp only [if_pos h]; exact Nat.le_succ_of_le ih
    · simp only [if_neg h, List.length_cons]; omega

theorem tblErase_absent {l : List (Nat × Nat)} {t : Nat}
    (h : tblLookup l t = none) : tblErase l t = l := by
  induction l with
  | nil => rfl
  | cons kv rest ih =>
    simp only [tblLookup] at h
    by_cases hk : kv.1 = t
    · simp [if_pos hk] at h
    · simp only [tblErase, if_neg hk]
      rw [ih (by simpa [if_neg hk] using h)]

theorem tblLookup_erase_self (l : List (Nat × Nat)) (t : Nat) :
    tblLookup (tblErase l t) t = none := by
  induction l with
  | nil => rfl
  | cons kv rest ih =>
    simp only [tblErase]
    by_cases hk : kv.1 = t
    · simpa [if_pos hk] using ih
    · simpa [tblLookup, if_neg hk] using ih

theorem tblLookup_erase_none {l : List (Nat × Nat)} {t : Nat} (x : Nat)
    (h : tblLookup l t = none) : tblLookup (tblErase l x) t = none := by
  induction l with
  | nil => rfl
  | cons kv rest ih =>
    simp only [tblLookup] at h
    by_cases hk : kv.1 = t
    · simp [if_pos hk] at h
    · have h' : tblLookup rest t = none := by simpa [if_neg hk] using h
      simp only [tblErase]
      by_cases hx : kv.1 = x
      · simpa [if_pos hx] using ih h'
      · simpa [tblLookup, if_neg hx, if_neg hk] using ih h'

/-! The OPEN token search succeeds within `length + 1` iterations whenever
the table has fewer than 2^32 entries: the candidates are distinct modulo
2^32 and outnumber the keys. -/

theorem exists_fresh (l : List (Nat × Nat)) (c : Nat) (h : l.length + 1 ≤ U32) :
    ∃ i, i < l.length + 1 ∧ tblLookup l ((c + i) % U32) = none := by
  by_contra hcon
  push_neg at hcon
  have hmem : ∀ i ∈ Finset.range (l.length + 1),
      (c + i) % U32 ∈ (l.map Prod.fst).toFinset := by
    intro i hi
    rw [List.mem_toFinset]
    by_contra hnm
    exact hcon i (Finset.mem_range.mp hi) (tblLookup_not_mem hnm)
  have hinj : Set.InjOn (fun i => (c + i) % U32) (Finset.range (l.length + 1)) := by
    intro i hi j hj hij
    simp only [Finset.coe_range, Set.mem_Iio] at hi hj
    have hmod : i % U32 = j % U32 :=
      Nat.ModEq.add_left_cancel' c hij
    rwa [Nat.mod_eq_of_lt (lt_of_lt_of_le hi h),
         Nat.mod_eq_of_lt (lt_of_lt_of_le hj h)] at hmod
  have hcard := Finset.card_le_card_of_injOn _ hmem hinj
  have hkeys : ((l.map Prod.fst).toFinset).card ≤ l.length := by
    calc ((l.map Prod.fst).toFinset).card ≤ (l.map Prod.fst).length :=
          (l.map Prod.fst).toFinset_card_le
      _ = l.length := by simp
  rw [Finset.card_range] at hcard
  omega

theorem allocLoop_isSome {l : List (Nat × Nat)} :
    ∀ fuel c, (∃ i, i < fuel ∧ tblLookup l ((c + i) % U32) = none) →
      (allocLoop l c fuel).isSome := by
  intro fuel
  induction fuel with
  | zero => intro c ⟨i, hi, _⟩; omega
  | succ n ih =>
    intro c ⟨i, hi, hnone⟩
    cases hl : tblLookup l (c % U32) with
    | none => simp [allocLoop, hl]
    | some v =>
      simp only [allocLoop, hl]
      apply ih
      cases i with
      | zero =>
        rw [Nat.add_zero] at hnone
        rw [hnone] at hl
        cases hl
      | succ j =>
        refine ⟨j, by omega, ?_⟩
        rw [Nat.mod_add_mod]
        have harg : c + 1 + j = c + (j + 1) := by omega
        rw [harg]
        exact hnone

theorem allocLoop_fresh {l : List (Nat × Nat)} :
    ∀ fuel c t c', allocLoop l c fuel = some (t, c') → tblLookup l t = none := by
  intro fuel
  induction fuel with
  | zero => intro c t c' h; cases h
  | succ n ih =>
    intro c t c' h
    cases hl : tblLookup l (c % U32) with
    | none =>
      simp only [allocLoop, hl] at h
      cases h
      exact hl
    | some v =>
      simp only [allocLoop, hl] at h
      exact ih _ _ _ h

theorem allocLoop_lt {l : List (Nat × Nat)} :
    ∀ fuel c t c', allocLoop l c fuel = some (t, c') → t < U32 := by
  intro fuel
  induction fuel with
  | zero => intro c t c' h; cases h
  | succ n ih =>
    intro c t c' h
    cases hl : tblLookup l (c % U32) with
    | none =>
      simp only [allocLoop, hl] at h
      cases h
      exact Nat.mod_lt _ (by norm_num [U32])
    | some v =>
      simp only [allocLoop, hl] at h
      exact ih _ _ _ h

theorem allocLoop_isSome_of_length_lt (l : List (Nat × Nat)) (c : Nat)
    (h : l.length < U32) : (allocLoop l c (l.length + 1)).isSome := by
  exact allocLoop_isSome _ _ (exists_fresh l c (by omega))

/-- Shape of a successful OPEN: below capacity the handler issues a token
not live in the table, conses the new mapping, and replies success. -/
theorem open_spec (s : Session) (nid : Nat)
    (h : s.handles.length < NUM_MAX_HANDLES) :
    ∃ t c', handle_fuse_open s nid = (0, ⟨(t, nid) :: s.handles, c'⟩, some t) ∧
      tblLookup s.handles t = none ∧ t < U32 := by
  have hu : s.handles.length < U32 := by
    have : NUM_MAX_HANDLES < U32 := by norm_num [NUM_MAX_HANDLES, U32]
    omega
  have hsome := allocLoop_isSome_of_length_lt s.handles s.counter hu
  rw [Option.isSome_iff_exists] at hsome
  obtain ⟨⟨t, c'⟩, heq⟩ := hsome
  refine ⟨t, c', ?_, allocLoop_fresh _ _ _ _ heq, allocLoop_lt _ _ _ _ heq⟩
  unfold handle_fuse_open
  rw [if_neg (by omega), heq]

/-! Invariant lemmas about the dispatcher's state transition. -/

theorem stepS_handles_le (p : ContentProvider) (s : Session) (r : Request)
    (h : s.handles.length ≤ NUM_MAX_HANDLES) :
    (stepS p s r).handles.length ≤ NUM_MAX_HANDLES := by
  rcases r with ⟨u, nid, op⟩
  cases op with
  | openOp =>
    show (handle_fuse_open s nid).2.1.handles.length ≤ NUM_MAX_HANDLES
    unfold handle_fuse_open
    by_cases hfull : NUM_MAX_HANDLES ≤ s.handles.length
    · rw [if_pos hfull]; exact h
    · rw [if_neg hfull]
      rcases halloc : allocLoop s.handles s.counter (s.handles.length + 1) with
        _ | ⟨t, c'⟩
      · simp only [halloc]; exact h
      · simp only [halloc, List.length_cons]; omega
  | releaseOp fh =>
    show (tblErase s.handles (fh % U32)).length ≤ NUM_MAX_HANDLES
    exact le_trans (tblErase_length_le s.handles (fh % U32)) h
  | lookupOp name => exact h
  | initOp major minor mra => exact h
  | getattrOp => exact h
  | readOp fh off sz => exact h
  | flushOp => exact h
  | forgetOp => exact h
  | unsupportedOp opc => exact h

theorem foldl_handles_le (p : ContentProvider) :
    ∀ (reqs : List Request) (s : Session),
      s.handles.length ≤ NUM_MAX_HANDLES →
      ((reqs.foldl (stepS p) s)).handles.length ≤ NUM_MAX_HANDLES
  | [], _, h => h
  | r :: rest, s, h =>
    foldl_handles_le p rest (stepS p s r) (stepS_handles_le p s r h)

theorem stepS_absent (p : ContentProvider) (s : Session) (r : Request) (t : Nat)
    (h : tblLookup s.handles t = none)
    (hnot : ¬(r.op = OpData.openOp ∧ (handle_fuse_open s r.nodeid).2.2 = some t)) :
    tblLookup (stepS p s r).handles t = none := by
  rcases r with ⟨u, nid, op⟩
  cases op with
  | openOp =>
    have hne : (handle_fuse_open s nid).2.2 ≠ some t := fun he => hnot ⟨rfl, he⟩
    show tblLookup (handle_fuse_open s nid).2.1.handles t = none
    unfold handle_fuse_open at hne ⊢
    by_cases hfull : NUM_MAX_HANDLES ≤ s.handles.length
    · rw [if_pos hfull]; exact h
    · rw [if_neg hfull] at hne ⊢
      rcases halloc : allocLoop s.handles s.counter (s.handles.length + 1) with
        _ | ⟨tok, c'⟩
      · simp only [halloc]; exact h
      · simp only [halloc] at hne ⊢
        have htok : ¬(tok = t) := fun e => hne (by rw [e])
        simp only [tblLookup]
        rw [if_neg htok]
        exact h
  | releaseOp fh =>
    show tblLookup (tblErase s.handles (fh % U32)) t = none
    exact tblLookup_erase_none (fh % U32) h
  | lookupOp name => exact h
  | initOp major minor mra => exact h
  | getattrOp => exact h
  | readOp fh off sz => exact h
  | flushOp => exact h
  | forgetOp => exact h
  | unsupportedOp opc => exact h

theorem foldl_absent (p : ContentProvider) :
    ∀ (reqs : List Request) (s : Session) (t : Nat),
      tblLookup s.handles t = none → avoidsT p s reqs t →
      tblLookup ((reqs.foldl (stepS p) s)).handles t = none
  | [], _, _, h, _ => h
  | r :: rest, s, t, h, ha =>
    foldl_absent p rest (stepS p s r) t (stepS_absent p s r t h ha.1) ha.2

/-! Concrete providers used as explicit inputs in the claim theorems. -/

/-- A provider with one file: inode 2 of size 10; byte-range requests are
answered with an array of exactly the requested length. -/
def pTen : ContentProvider :=
  ⟨fun i => if i = 2 then 10 else -1, fun _ _ sz => some (List.replicate sz 0)⟩

/-- A provider that knows the (negative) inode -5, of size 7. -/
def pNegFile : ContentProvider :=
  ⟨fun i => if i = -5 then 7 else -1, fun _ _ _ => none⟩

/-- A provider that knows nothing. -/
def pEmpty : ContentProvider := ⟨fun _ => -1, fun _ _ _ => none⟩

/-- The effective READ size demanded by the spec:
`min(in.size, max(0, file_size(inode) - in.offset))`. -/
def spec_effective_size (size : Nat) (fs : Int) (offset : Nat) : Int :=
  min (size : Int) (max 0 (fs - (offset : Int)))

/-- Claim C1 (code bug): for a READ at offset 11 on a file of size 10 (one
byte past EOF) with `in.size = 4`, the code passes `read_size = 4` to the
provider and replies with a 4-byte payload: `get_file_size(inode) - offset`
is computed in `uint64_t` arithmetic, so the negative difference wraps to
2^64 - 1 and the `std::min` clamp has no effect.  The spec's effective size
`min(in.size, max(0, file_size - offset))` is 0 at this input. -/
theorem claim1_read_past_eof_wraps :
    handle_fuse_read pTen ⟨[(3, 2)], 4⟩ 3 11 4 = ⟨0, 4, some (2, 11, 4)⟩ ∧
    u64sub (i64ToU64 (pTen.getFileSize 2)) 11 = U64 - 1 ∧
    spec_effective_size 4 (pTen.getFileSize 2) 11 = 0 := by
  refine ⟨by decide, by decide, by decide⟩

/-- Claim C3 (code bug): the `unique` parameter of `fuse_reply` is a C
`int`, so a request unique of 2^32 is truncated to 0 in the reply header
instead of being echoed. -/
theorem claim3_unique_truncated :
    (fuse_reply 4294967296 0 16).unique = 0 ∧
    (fuse_reply 4294967296 0 16).unique ≠ 4294967296 := by
  refine ⟨by decide, by decide⟩

/-- Claim C2 counterexample: with parent 1 and name "-5" (which atoi parses
to -5 ≤ 0) and a provider whose `getFileSize(-5)` is 7, the LOOKUP reply is
success, not ENOENT, and `get_file_size` was consulted — refuting the claim
that a name parsing to a value ≤ 0 yields ENOENT without consulting the
provider. -/
theorem claim2_counterexample :
    atoi "-5" ≤ 0 ∧
    (handle_fuse_lookup pNegFile 1 "-5").reply ≠ -ENOENT ∧
    (handle_fuse_lookup pNegFile 1 "-5").consulted ≠ none := by
  refine ⟨by decide, by decide, by decide⟩

/-- Claim C2 as amended: LOOKUP replies ENOENT without consulting the
provider when the parent is not 1 or when the name parses (atoi) to 0 — in
particular for every unparsable name; when the name parses to any nonzero
value, including negative ones, `get_file_size` is consulted with that value
and the reply is ENOENT exactly when it returns a negative size. -/
theorem claim2_lookup_guards :
    (∀ (p : ContentProvider) (nodeid : Nat) (name : String), nodeid ≠ 1 →
      handle_fuse_lookup p nodeid name = ⟨-ENOENT, none, none⟩) ∧
    (∀ (p : ContentProvider) (name : String), atoi name = 0 →
      handle_fuse_lookup p 1 name = ⟨-ENOENT, none, none⟩) ∧
    (∀ (p : ContentProvider) (name : String), atoi name ≠ 0 →
      (handle_fuse_lookup p 1 name).consulted = some (atoi name) ∧
      ((handle_fuse_lookup p 1 name).reply = -ENOENT ↔
        p.getFileSize (atoi name) < 0)) := by
  refine ⟨?_, ?_, ?_⟩
  · intro p nodeid name h
    unfold handle_fuse_lookup
    rw [if_pos h]
  · intro p name h
    unfold handle_fuse_lookup
    rw [if_neg (by simp), if_pos h]
  · intro p name h
    unfold handle_fuse_lookup
    rw [if_neg (by simp)]
    by_cases hs : p.getFileSize (atoi name) < 0
    · simp [if_neg h, if_pos hs, hs]
    · simp only [if_neg h, if_neg hs]
      refine ⟨by simp, ?_⟩
      constructor
      · intro h0
        exfalso
        have : (0 : Int) = -ENOENT := h0
        norm_num [ENOENT] at this
      · intro h0; exact absurd h0 hs

/-- Witness for `claim2_lookup_guards` at concrete inputs: parent 2,
unparsable name "abc", and name "42" against the provider knowing nothing. -/
theorem claim2_lookup_guards_witness :
    handle_fuse_lookup pEmpty 2 "1" = ⟨-ENOENT, none, none⟩ ∧
    handle_fuse_lookup pEmpty 1 "abc" = ⟨-ENOENT, none, none⟩ ∧
    ((handle_fuse_lookup pEmpty 1 "42").consulted = some (atoi "42") ∧
      ((handle_fuse_lookup pEmpty 1 "42").reply = -ENOENT ↔
        pEmpty.getFileSize (atoi "42") < 0)) :=
  ⟨claim2_lookup_guards.1 pEmpty 2 "1" (by decide),
   claim2_lookup_guards.2.1 pEmpty "abc" (by decide),
   claim2_lookup_guards.2.2 pEmpty "42" (by decide)⟩

/-- A (model) state whose handle table already holds 1024 entries. -/
def bigSession : Session := ⟨List.replicate 1024 (0, 0), 0⟩

/-- A state with one live handle: token 0 mapped to inode 5. -/
def sOne : Session := ⟨[(0, 5)], 1⟩

/-- Claim C4: every state reachable from the fresh session keeps the handle
table at no more than 1024 entries; an OPEN at capacity replies EMFILE and
leaves the state unchanged; an OPEN below capacity issues a token that is
not live and maps it to the request's nodeid. -/
theorem claim4_handle_table_bound :
    (∀ (p : ContentProvider) (reqs : List Request),
      ((reqs.foldl (stepS p) initialSession)).handles.length ≤ NUM_MAX_HANDLES) ∧
    (∀ (s : Session) (nid : Nat), NUM_MAX_HANDLES ≤ s.handles.length →
      handle_fuse_open s nid = (-EMFILE, s, none)) ∧
    (∀ (s : Session) (nid : Nat), s.handles.length < NUM_MAX_HANDLES →
      ∃ t c', handle_fuse_open s nid = (0, ⟨(t, nid) :: s.handles, c'⟩, some t) ∧
        tblLookup s.handles t = none ∧
        tblLookup ((t, nid) :: s.handles) t = some nid) := by
  refine ⟨?_, ?_, ?_⟩
  · intro p reqs
    exact foldl_handles_le p reqs initialSession
      (by simp [initialSession, NUM_MAX_HANDLES])
  · intro s nid h
    unfold handle_fuse_open
    rw [if_pos h]
  · intro s nid h
    obtain ⟨t, c', heq, hfresh, _⟩ := open_spec s nid h
    exact ⟨t, c', heq, hfresh, by simp [tblLookup]⟩

/-- Witness for `claim4_handle_table_bound`: the empty request sequence, an
OPEN against a full table, and an OPEN against the fresh session. -/
theorem claim4_handle_table_bound_witness :
    (([] : List Request).foldl (stepS pEmpty) initialSession).handles.length ≤
      NUM_MAX_HANDLES ∧
    handle_fuse_open bigSession 5 = (-EMFILE, bigSession, none) ∧
    (∃ t c', handle_fuse_open initialSession 7 =
        (0, ⟨(t, 7) :: initialSession.handles, c'⟩, some t) ∧
      tblLookup initialSession.handles t = none ∧
      tblLookup ((t, 7) :: initialSession.handles) t = some 7) :=
  ⟨claim4_handle_table_bound.1 pEmpty [],
   claim4_handle_table_bound.2.1 bigSession 5
     (by rw [show bigSession.handles = List.replicate 1024 (0, 0) from rfl,
           List.length_replicate]
         exact Nat.le_refl 1024),
   claim4_handle_table_bound.2.2 initialSession 7
     (by simp [initialSession, NUM_MAX_HANDLES])⟩

/-- Claim C5: INIT with matching major and minor ≥ 6 succeeds with
minor = min(kernel minor, 15), echoed max_readahead,
flags = FUSE_ATOMIC_O_TRUNC | FUSE_BIG_WRITES, max_background = 32,
congestion_threshold = 32 and max_write = 256 KiB; a mismatching major or
minor < 6 is answered with the negative reply code -1. -/
theorem claim5_init_reply :
    (∀ (major minor mra : Nat), major = FUSE_KERNEL_VERSION → 6 ≤ minor →
      handle_fuse_init major minor mra =
        (0, some (⟨FUSE_KERNEL_VERSION, min minor 15, mra,
            FUSE_ATOMIC_O_TRUNC ||| FUSE_BIG_WRITES, 32, 32, MAX_WRITE⟩,
          if minor ≤ 22 then FUSE_COMPAT_22_INIT_OUT_SIZE else SIZEOF_INIT_OUT))) ∧
    (∀ (major minor mra : Nat), major ≠ FUSE_KERNEL_VERSION ∨ minor < 6 →
      handle_fuse_init major minor mra = (-1, none) ∧ (-1 : Int) < 0) := by
  refine ⟨?_, ?_⟩
  · intro major minor mra hmaj hmin
    unfold handle_fuse_init
    rw [if_neg (by push_neg; exact ⟨hmaj, by omega⟩)]
  · intro major minor mra h
    unfold handle_fuse_init
    rw [if_pos h]
    exact ⟨rfl, by norm_num⟩

/-- Witness for `claim5_init_reply`: the spec's INIT negotiation scenario
(7.22 kernel) and a minor-too-small request. -/
theorem claim5_init_reply_witness :
    handle_fuse_init 7 22 131072 =
      (0, some (⟨FUSE_KERNEL_VERSION, min 22 15, 131072,
          FUSE_ATOMIC_O_TRUNC ||| FUSE_BIG_WRITES, 32, 32, MAX_WRITE⟩,
        if 22 ≤ 22 then FUSE_COMPAT_22_INIT_OUT_SIZE else SIZEOF_INIT_OUT)) ∧
    (handle_fuse_init 7 5 0 = (-1, none) ∧ (-1 : Int) < 0) :=
  ⟨claim5_init_reply.1 7 22 131072 rfl (by decide),
   claim5_init_reply.2 7 5 0 (Or.inr (by decide))⟩

/-- Oversized READs reply EINVAL before touching the table. -/
theorem read_reply_einval (p : ContentProvider) (s : Session) (fh off sz : Nat)
    (h : MAX_READ < sz) : (handle_fuse_read p s fh off sz).reply = -EINVAL := by
  unfold handle_fuse_read
  rw [if_pos h]

/-- READs whose (narrowed) handle is not live reply EBADF. -/
theorem read_reply_ebadf (p : ContentProvider) (s : Session) (fh off sz : Nat)
    (hsz : sz ≤ MAX_READ) (h : tblLookup s.handles (fh % U32) = none) :
    (handle_fuse_read p s fh off sz).reply = -EBADF := by
  unfold handle_fuse_read
  rw [if_neg (by omega), h]

/-- Claim C6 counterexample: token 0 is live (mapped to inode 2) and
4294967296 (2^32) is not a live token, yet READ with fh = 2^32 replies
success, not EBADF: `handles_.find(in->fh)` narrows the 64-bit fh to the
table's `uint32_t` key type, so the aliased live token 0 is found and the
read is served. -/
theorem claim6_counterexample :
    tblLookup [(0, 2)] 4294967296 = none ∧
    (handle_fuse_read pTen ⟨[(0, 2)], 1⟩ 4294967296 0 4).reply = 0 ∧
    ((0 : Int) ≠ -EBADF) := by
  refine ⟨by decide, by decide, by decide⟩

/-- Claim C6 as amended: READ replies EINVAL when `in.size` exceeds
128 KiB; otherwise `in.fh` is narrowed modulo 2^32 at the table lookup and
READ replies EBADF when the narrowed value is not a live token; RELEASE
erases the narrowed token, and it stays absent — so every READ whose fh
narrows to it replies EBADF — across any further requests none of which is
an OPEN reissuing that token. -/
theorem claim6_read_errors :
    (∀ (p : ContentProvider) (s : Session) (fh off sz : Nat), MAX_READ < sz →
      (handle_fuse_read p s fh off sz).reply = -EINVAL) ∧
    (∀ (p : ContentProvider) (s : Session) (fh off sz : Nat), sz ≤ MAX_READ →
      tblLookup s.handles (fh % U32) = none →
      (handle_fuse_read p s fh off sz).reply = -EBADF) ∧
    (∀ (s : Session) (fh : Nat),
      tblLookup ((handle_fuse_release s fh).2).handles (fh % U32) = none) ∧
    (∀ (p : ContentProvider) (s : Session) (fh off sz : Nat)
        (reqs : List Request), sz ≤ MAX_READ →
      avoidsT p (handle_fuse_release s fh).2 reqs (fh % U32) →
      (handle_fuse_read p (reqs.foldl (stepS p) (handle_fuse_release s fh).2)
        fh off sz).reply = -EBADF) := by
  refine ⟨read_reply_einval, read_reply_ebadf, ?_, ?_⟩
  · intro s fh
    exact tblLookup_erase_self s.handles (fh % U32)
  · intro p s fh off sz reqs hsz havoid
    exact read_reply_ebadf p _ fh off sz hsz
      (foldl_absent p reqs _ (fh % U32)
        (tblLookup_erase_self s.handles (fh % U32)) havoid)

/-- Witness for `claim6_read_errors`: an oversized READ, a READ of a dead
token, and the release-then-read sequence with no interleaved requests. -/
theorem claim6_read_errors_witness :
    (handle_fuse_read pEmpty sOne 0 0 131073).reply = -EINVAL ∧
    (handle_fuse_read pEmpty sOne 9 0 4).reply = -EBADF ∧
    tblLookup ((handle_fuse_release sOne 0).2).handles (0 % U32) = none ∧
    (handle_fuse_read pEmpty (([] : List Request).foldl (stepS pEmpty)
      (handle_fuse_release sOne 0).2) 0 0 4).reply = -EBADF :=
  ⟨claim6_read_errors.1 pEmpty sOne 0 0 131073 (by decide),
   claim6_read_errors.2.1 pEmpty sOne 9 0 4 (by decide) (by decide),
   claim6_read_errors.2.2.1 sOne 0,
   claim6_read_errors.2.2.2 pEmpty sOne 0 0 4 [] (by decide) trivial⟩

/-- Claim C7: an error reply forces the payload to 0, writes a single iovec
segment and sets len to the header size; a success reply sets
len = header size + payload size and includes the payload segment exactly
when the payload is nonempty. -/
theorem claim7_reply_framing :
    (∀ (u : Nat) (rc : Int) (rs : Nat), rc ≠ 0 →
      (fuse_reply u rc rs).payloadSize = 0 ∧
      (fuse_reply u rc rs).len = SIZEOF_OUT_HEADER ∧
      (fuse_reply u rc rs).iovCount = 1) ∧
    (∀ (u rs : Nat), rs + SIZEOF_OUT_HEADER < U32 →
      (fuse_reply u 0 rs).payloadSize = rs ∧
      (fuse_reply u 0 rs).len = SIZEOF_OUT_HEADER + rs ∧
      (0 < rs → (fuse_reply u 0 rs).iovCount = 2) ∧
      (rs = 0 → (fuse_reply u 0 rs).iovCount = 1)) := by
  refine ⟨?_, ?_⟩
  · intro u rc rs h
    simp only [fuse_reply, if_pos h]
    norm_num [SIZEOF_OUT_HEADER, U32]
  · intro u rs h
    have hne : ¬((0 : Int) ≠ 0) := by norm_num
    simp only [fuse_reply, if_neg hne]
    refine ⟨by trivial, ?_, ?_, ?_⟩
    · rw [Nat.mod_eq_of_lt (by omega), Nat.add_comm]
    · intro hrs
      rw [if_pos (by omega)]
    · intro hrs
      rw [if_neg (by omega)]

/-- Witness for `claim7_reply_framing`: an error reply with code -2 and a
success reply with a 5-byte payload. -/
theorem claim7_reply_framing_witness :
    ((fuse_reply 3 (-2) 5).payloadSize = 0 ∧
      (fuse_reply 3 (-2) 5).len = SIZEOF_OUT_HEADER ∧
      (fuse_reply 3 (-2) 5).iovCount = 1) ∧
    ((fuse_reply 3 0 5).payloadSize = 5 ∧
      (fuse_reply 3 0 5).len = SIZEOF_OUT_HEADER + 5 ∧
      (0 < 5 → (fuse_reply 3 0 5).iovCount = 2) ∧
      (5 = 0 → (fuse_reply 3 0 5).iovCount = 1)) :=
  ⟨claim7_reply_framing.1 3 (-2) 5 (by decide),
   claim7_reply_framing.2 3 5 (by decide)⟩

/-- Claim C8: FORGET makes the dispatcher return false without a reply and
terminates the loop with success; unsupported opcodes are answered ENOSYS
and the loop continues; no opcode other than FORGET makes the dispatcher
signal termination; a read failing with ENODEV terminates the loop with the
failure result. -/
theorem claim8_dispatch_loop :
    (∀ (p : ContentProvider) (s : Session) (u nid : Nat),
      handle_fuse_request p s ⟨u, nid, OpData.forgetOp⟩ = (false, s, none)) ∧
    (∀ (p : ContentProvider) (s : Session) (u nid L : Nat) (rest : List Event),
      SIZEOF_IN_HEADER ≤ L →
      fuse_loop p s (Event.frame L L ⟨u, nid, OpData.forgetOp⟩ :: rest) =
        (some true, [])) ∧
    (∀ (p : ContentProvider) (s : Session) (u nid opc : Nat),
      handle_fuse_request p s ⟨u, nid, OpData.unsupportedOp opc⟩ =
        (true, s, some (fuse_reply u (-ENOSYS) 0)) ∧
      (fuse_reply u (-ENOSYS) 0).error = -ENOSYS) ∧
    (∀ (p : ContentProvider) (s : Session) (r : Request),
      r.op ≠ OpData.forgetOp → (handle_fuse_request p s r).1 = true) ∧
    (∀ (p : ContentProvider) (s : Session) (rest : List Event),
      fuse_loop p s (Event.readErr ENODEV :: rest) = (some false, [])) := by
  refine ⟨fun p s u nid => rfl, ?_, fun p s u nid opc => ⟨rfl, rfl⟩, ?_, ?_⟩
  · intro p s u nid L rest h
    show (if L < SIZEOF_IN_HEADER then _ else _) = (some true, [])
    rw [if_neg (by omega), if_neg (fun hc => hc rfl)]
    rfl
  · intro p s r h
    rcases r with ⟨u, nid, op⟩
    cases op with
    | forgetOp => exact absurd rfl h
    | lookupOp name => rfl
    | initOp major minor mra => rfl
    | getattrOp => rfl
    | openOp => rfl
    | readOp fh off sz => rfl
    | releaseOp fh => rfl
    | flushOp => rfl
    | unsupportedOp opc => rfl
  · intro p s rest
    show (if ENODEV = ENODEV then _ else _) = (some false, [])
    rw [if_pos rfl]

/-- Witness for `claim8_dispatch_loop`: a well-formed FORGET frame, the
WRITE opcode (16) as an unsupported request, FLUSH as a non-FORGET opcode,
and an ENODEV read failure. -/
theorem claim8_dispatch_loop_witness :
    handle_fuse_request pEmpty initialSession ⟨1, 1, OpData.forgetOp⟩ =
      (false, initialSession, none) ∧
    fuse_loop pEmpty initialSession
      [Event.frame 40 40 ⟨1, 1, OpData.forgetOp⟩] = (some true, []) ∧
    (handle_fuse_request pEmpty initialSession ⟨1, 1, OpData.unsupportedOp 16⟩ =
        (true, initialSession, some (fuse_reply 1 (-ENOSYS) 0)) ∧
      (fuse_reply 1 (-ENOSYS) 0).error = -ENOSYS) ∧
    (handle_fuse_request pEmpty initialSession ⟨1, 1, OpData.flushOp⟩).1 = true ∧
    fuse_loop pEmpty initialSession [Event.readErr ENODEV] = (some false, []) :=
  ⟨claim8_dispatch_loop.1 pEmpty initialSession 1 1,
   claim8_dispatch_loop.2.1 pEmpty initialSession 1 1 40 [] (by decide),
   claim8_dispatch_loop.2.2.1 pEmpty initialSession 1 1 16,
   claim8_dispatch_loop.2.2.2.1 pEmpty initialSession ⟨1, 1, OpData.flushOp⟩
     (by decide),
   claim8_dispatch_loop.2.2.2.2 pEmpty initialSession []⟩

/-- Claim C9: from any state with room in the table, OPEN(N) followed by a
READ of the issued token and a RELEASE of it restores the handle table to
its pre-OPEN contents; RELEASE replies success unconditionally, and erasing
an absent token leaves the table unchanged. -/
theorem claim9_roundtrip :
    (∀ (p : ContentProvider) (s : Session) (N K u2 u3 nid2 nid3 : Nat),
      s.handles.length < NUM_MAX_HANDLES →
      ∃ t c', handle_fuse_open s N = (0, ⟨(t, N) :: s.handles, c'⟩, some t) ∧
        (handle_fuse_request p ⟨(t, N) :: s.handles, c'⟩
          ⟨u2, nid2, OpData.readOp t 0 K⟩).2.1 = ⟨(t, N) :: s.handles, c'⟩ ∧
        (handle_fuse_request p ⟨(t, N) :: s.handles, c'⟩
          ⟨u3, nid3, OpData.releaseOp t⟩).2.1.handles = s.handles) ∧
    (∀ (s : Session) (fh : Nat), (handle_fuse_release s fh).1 = 0) ∧
    (∀ (l : List (Nat × Nat)) (t : Nat), tblLookup l t = none →
      tblErase l t = l) := by
  refine ⟨?_, fun s fh => rfl, fun l t h => tblErase_absent h⟩
  intro p s N K u2 u3 nid2 nid3 h
  obtain ⟨t, c', heq, hfresh, hlt⟩ := open_spec s N h
  refine ⟨t, c', heq, rfl, ?_⟩
  show tblErase ((t, N) :: s.handles) (t % U32) = s.handles
  rw [Nat.mod_eq_of_lt hlt]
  simp only [tblErase, if_pos rfl]
  exact tblErase_absent hfresh

/-- Witness for `claim9_roundtrip`: the cycle run from the fresh session on
inode 5, a RELEASE on a populated state, and an erase of an absent token. -/
theorem claim9_roundtrip_witness :
    (∃ t c', handle_fuse_open initialSession 5 =
        (0, ⟨(t, 5) :: initialSession.handles, c'⟩, some t) ∧
      (handle_fuse_request pTen ⟨(t, 5) :: initialSession.handles, c'⟩
        ⟨2, 5, OpData.readOp t 0 4⟩).2.1 = ⟨(t, 5) :: initialSession.handles, c'⟩ ∧
      (handle_fuse_request pTen ⟨(t, 5) :: initialSession.handles, c'⟩
        ⟨3, 5, OpData.releaseOp t⟩).2.1.handles = initialSession.handles) ∧
    (handle_fuse_release sOne 3).1 = 0 ∧
    tblErase [(1, 2)] 9 = [(1, 2)] :=
  ⟨claim9_roundtrip.1 pTen initialSession 5 4 2 3 5 5 (by decide),
   claim9_roundtrip.2.1 sOne 3,
   claim9_roundtrip.2.2 [(1, 2)] 9 (by decide)⟩

/-- Claim C10: the OPEN dispatch result is the same for every provider (the
handler makes no upcall); below capacity OPEN succeeds with a fresh token
for every nodeid, including the root (1), inode 0 and inodes the provider
does not know; the provider's existence check happens on READ, whose
handler queries `get_file_size` on each call whose narrowed fh is a live
handle. -/
theorem claim10_open_no_upcall :
    (∀ (p q : ContentProvider) (s : Session) (u nid : Nat),
      handle_fuse_request p s ⟨u, nid, OpData.openOp⟩ =
        handle_fuse_request q s ⟨u, nid, OpData.openOp⟩) ∧
    (∀ (s : Session) (nid : Nat), s.handles.length < NUM_MAX_HANDLES →
      ∃ t c', handle_fuse_open s nid =
        (0, ⟨(t, nid) :: s.handles, c'⟩, some t)) ∧
    (∀ (p : ContentProvider) (s : Session) (fh off sz inode : Nat),
      sz ≤ MAX_READ → tblLookup s.handles (fh % U32) = some inode →
      (handle_fuse_read p s fh off sz).call =
        some (toInt32 inode, off,
          min sz (u64sub (i64ToU64 (p.getFileSize (toInt32 inode))) off))) := by
  refine ⟨fun p q s u nid => rfl, ?_, ?_⟩
  · intro s nid h
    obtain ⟨t, c', heq, _, _⟩ := open_spec s nid h
    exact ⟨t, c', heq⟩
  · intro p s fh off sz inode hsz hlk
    unfold handle_fuse_read
    rw [if_neg (by omega), hlk]
    show (if (get_object_bytes p (toInt32 inode) off sz).1 < 0 then
            (⟨-EIO_ERRNO, 0, some (get_object_bytes p (toInt32 inode) off sz).2⟩ :
              ReadResult)
          else ⟨0, (get_object_bytes p (toInt32 inode) off sz).1.toNat,
            some (get_object_bytes p (toInt32 inode) off sz).2⟩).call =
      some (toInt32 inode, off,
        min sz (u64sub (i64ToU64 (p.getFileSize (toInt32 inode))) off))
    by_cases hres : (get_object_bytes p (toInt32 inode) off sz).1 < 0
    · rw [if_pos hres]; rfl
    · rw [if_neg hres]; rfl

/-- Witness for `claim10_open_no_upcall`: OPEN with nodeid 0 under two
different providers, and the READ of the pTen file at offset 0. -/
theorem claim10_open_no_upcall_witness :
    handle_fuse_request pEmpty initialSession ⟨1, 0, OpData.openOp⟩ =
      handle_fuse_request pTen initialSession ⟨1, 0, OpData.openOp⟩ ∧
    (∃ t c', handle_fuse_open initialSession 0 =
        (0, ⟨(t, 0) :: initialSession.handles, c'⟩, some t)) ∧
    (handle_fuse_read pTen ⟨[(3, 2)], 4⟩ 3 0 4).call =
      some (toInt32 2, 0,
        min 4 (u64sub (i64ToU64 (pTen.getFileSize (toInt32 2))) 0)) :=
  ⟨claim10_open_no_upcall.1 pEmpty pTen initialSession 1 0,
   claim10_open_no_upcall.2.1 initialSession 0 (by decide),
   claim10_open_no_upcall.2.2 pTen ⟨[(3, 2)], 4⟩ 3 0 4 2 (by decide) (by decide)⟩
